import Mathlib

/-
Verification of the thread-management core (src/src/thread.cc) against its
natural-language specification.  Each section embeds one cluster of source
functions as executable Lean definitions, then proves (or refutes) the spec
claims about them.
-/

set_option maxRecDepth 4000

namespace ArtThread

/-! ## Suspend accounting (Thread::ModifySuspendCount, thread.cc:464-481) -/

/-- The two suspend counters of a Thread: `suspend_count_` and
`debug_suspend_count_` (signed ints in the source). -/
structure SuspendCounts where
  suspend_count : Int
  debug_suspend_count : Int
deriving Repr, DecidableEq

/-- Counter effect of `Thread::ModifySuspendCount(delta, for_debugger)`
(thread.cc:464-481).  When `delta == -1` and `suspend_count_ <= 0` the call
returns early (tolerated or fatal, see `ModifySuspendCountFull`), leaving
both counters unchanged; otherwise `suspend_count_ += delta` and, when
`for_debugger`, `debug_suspend_count_ += delta`. -/
def ModifySuspendCount (s : SuspendCounts) (delta : Int) (for_debugger : Bool) :
    SuspendCounts :=
  if delta = -1 ∧ s.suspend_count ≤ 0 then
    s
  else
    { suspend_count := s.suspend_count + delta,
      debug_suspend_count :=
        if for_debugger then s.debug_suspend_count + delta else s.debug_suspend_count }

/-- Outcome of a `ModifySuspendCount` call once the fatal path is made
explicit: either the updated counters, or an abort.  The `dumpedThreadList`
flag records that `UnsafeLogFatalForSuspendCount` dumped the thread registry
before `LOG(FATAL)`. -/
inductive SuspendCountOutcome where
  | ok (s : SuspendCounts)
  | fatal (dumpedThreadList : Bool)
deriving Repr, DecidableEq

/-- `UnsafeLogFatalForSuspendCount` (thread.cc:449-462): dumps the thread
list (`ThreadList::DumpLocked`) into the message and then aborts via
`LOG(FATAL)`. -/
def UnsafeLogFatalForSuspendCount : SuspendCountOutcome :=
  .fatal true

/-- `kThreadNameDuringStartup` (thread.cc:58): the placeholder name every
thread carries until it first becomes runnable. -/
def kThreadNameDuringStartup : String := "<native thread without managed peer>"

/-- `Thread::IsStillStarting` (thread.cc:859-867): the thread name still
being the startup placeholder is the proxy for "has never entered
kRunnable". -/
def IsStillStarting (name : String) : Bool :=
  name = kThreadNameDuringStartup

/-- `Thread::ModifySuspendCount` (thread.cc:464-481) with the
underflow-handling path explicit: when `delta == -1` and
`suspend_count_ <= 0`, the call is tolerated (no-op) iff the thread is still
starting, and otherwise calls `UnsafeLogFatalForSuspendCount`. -/
def ModifySuspendCountFull (name : String) (s : SuspendCounts) (delta : Int)
    (for_debugger : Bool) : SuspendCountOutcome :=
  if delta = -1 ∧ s.suspend_count ≤ 0 then
    if !IsStillStarting name then UnsafeLogFatalForSuspendCount
    else .ok s
  else
    .ok { suspend_count := s.suspend_count + delta,
          debug_suspend_count :=
            if for_debugger then s.debug_suspend_count + delta else s.debug_suspend_count }

/-- Run a sequence of `ModifySuspendCount` calls, each given as
(delta, for_debugger). -/
def runSuspendCalls (s : SuspendCounts) (calls : List (Int × Bool)) : SuspendCounts :=
  calls.foldl (fun s c => ModifySuspendCount s c.1 c.2) s

/-- The API contract exactly as the spec states it for each call, checked
against the state at the time of the call: delta is +1, -1, or
`-debug_suspend_count_` (force-clear), plus the source's own
`DCHECK_GE(suspend_count_, debug_suspend_count_)` precondition. -/
def claimApiContract (s : SuspendCounts) : List (Int × Bool) → Bool
  | [] => true
  | (d, fd) :: rest =>
    (decide (d = 1) || decide (d = -1) || decide (d = -s.debug_suspend_count)) &&
    decide (s.debug_suspend_count ≤ s.suspend_count) &&
    claimApiContract (ModifySuspendCount s d fd) rest

/-- The invariant claimed by the spec:
`suspend_count >= debug_suspend_count >= 0`. -/
def suspendInvariant (s : SuspendCounts) : Bool :=
  decide (0 ≤ s.debug_suspend_count) && decide (s.debug_suspend_count ≤ s.suspend_count)

/-- The API contract strengthened so that decrements pair with matching
increments: a `-1` debugger decrement requires `debug_suspend_count_ > 0`, a
`-1` non-debugger decrement requires a non-debugger increment to be
outstanding (`debug_suspend_count_ < suspend_count_`, or the tolerated
`suspend_count_ <= 0` no-op), and a force-clear (`delta =
-debug_suspend_count_`) is a debugger operation. -/
def amendedApiContract (s : SuspendCounts) : List (Int × Bool) → Bool
  | [] => true
  | (d, fd) :: rest =>
    (decide (d = 1) ||
     (decide (d = -1) &&
       ((fd && decide (0 < s.debug_suspend_count)) ||
        (!fd && (decide (s.debug_suspend_count < s.suspend_count) ||
                 decide (s.suspend_count ≤ 0))))) ||
     (decide (d = -s.debug_suspend_count) && fd)) &&
    amendedApiContract (ModifySuspendCount s d fd) rest

theorem modifySuspendCount_step_inv (s : SuspendCounts) (d : Int) (fd : Bool)
    (hinv : suspendInvariant s = true)
    (hc : (decide (d = 1) ||
           (decide (d = -1) &&
             ((fd && decide (0 < s.debug_suspend_count)) ||
              (!fd && (decide (s.debug_suspend_count < s.suspend_count) ||
                       decide (s.suspend_count ≤ 0))))) ||
           (decide (d = -s.debug_suspend_count) && fd)) = true) :
    suspendInvariant (ModifySuspendCount s d fd) = true := by
  obtain ⟨sc, dsc⟩ := s
  simp only [suspendInvariant, ModifySuspendCount, Bool.and_eq_true, Bool.or_eq_true,
    Bool.not_eq_true', decide_eq_true_eq] at *
  rcases hc with (h1 | ⟨hd, ⟨hfd, hdsc⟩ | ⟨hfd, hcase⟩⟩) | ⟨hd, hfd⟩
  · subst h1
    cases fd <;> split <;> (try simp) <;> omega
  · subst hd hfd
    split <;> (try simp) <;> omega
  · subst hd hfd
    split <;> (try simp) <;> omega
  · subst hd hfd
    split <;> (try simp) <;> omega

theorem runSuspendCalls_inv (calls : List (Int × Bool)) :
    ∀ (s : SuspendCounts) (n : Nat), suspendInvariant s = true →
      amendedApiContract s calls = true →
      suspendInvariant (runSuspendCalls s (calls.take n)) = true := by
  induction calls with
  | nil =>
    intro s n hs _
    simp [runSuspendCalls, hs]
  | cons c rest ih =>
    intro s n hs hc
    simp only [amendedApiContract, Bool.and_eq_true] at hc
    cases n with
    | zero => simpa [runSuspendCalls] using hs
    | succ n =>
      have hstep := modifySuspendCount_step_inv s c.1 c.2 hs hc.1
      have := ih (ModifySuspendCount s c.1 c.2) n hstep hc.2
      simpa [runSuspendCalls, List.take_succ_cons] using this

/-- Claim C1, as stated, is false on the code: the sequence
`ModifySuspendCount(+1, false)` then `ModifySuspendCount(-1, true)` respects
the stated API contract (each delta is +1 or -1, and
`suspend_count_ >= debug_suspend_count_` holds at each call), yet leaves
`debug_suspend_count_ = -1`, violating
`suspend_count >= debug_suspend_count >= 0`. -/
theorem modifySuspendCount_claim_counterexample :
    claimApiContract ⟨0, 0⟩ [(1, false), (-1, true)] = true ∧
    suspendInvariant (runSuspendCalls ⟨0, 0⟩ [(1, false), (-1, true)]) = false := by
  decide

/-- Claim C1 (amended): for every sequence of `ModifySuspendCount` calls in
which each decrement pairs with a matching outstanding increment of the same
`for_debugger` flavour (and force-clears are debugger operations), the
invariant `suspend_count >= debug_suspend_count >= 0` holds after every
call, starting from a freshly constructed thread (both counters zero). -/
theorem modifySuspendCount_invariant (calls : List (Int × Bool)) (n : Nat)
    (h : amendedApiContract ⟨0, 0⟩ calls = true) :
    suspendInvariant (runSuspendCalls ⟨0, 0⟩ (calls.take n)) = true :=
  runSuspendCalls_inv calls ⟨0, 0⟩ n (by decide) h

theorem modifySuspendCount_invariant_witness :
    suspendInvariant
      (runSuspendCalls ⟨0, 0⟩ ([(1, true), (1, false), (-1, false), (-1, true)].take 3)) = true :=
  modifySuspendCount_invariant [(1, true), (1, false), (-1, false), (-1, true)] 3 (by decide)

/-- Claim C6: a `ModifySuspendCount(-1, _)` call made while
`suspend_count_ <= 0` is tolerated (both counters unchanged) exactly when
the target thread is still within its startup window, and otherwise aborts
after dumping the full thread registry. -/
theorem modifySuspendCount_underflow (name : String) (s : SuspendCounts) (fd : Bool)
    (h : s.suspend_count ≤ 0) :
    (IsStillStarting name = true → ModifySuspendCountFull name s (-1) fd = .ok s) ∧
    (IsStillStarting name = false → ModifySuspendCountFull name s (-1) fd = .fatal true) := by
  constructor <;> intro hn <;>
    simp [ModifySuspendCountFull, hn, h, UnsafeLogFatalForSuspendCount]

theorem modifySuspendCount_underflow_witness :
    ModifySuspendCountFull kThreadNameDuringStartup ⟨0, 0⟩ (-1) false = .ok ⟨0, 0⟩ ∧
    ModifySuspendCountFull "main" ⟨0, 0⟩ (-1) true = .fatal true :=
  ⟨(modifySuspendCount_underflow kThreadNameDuringStartup ⟨0, 0⟩ false (by decide)).1
      (by decide),
   (modifySuspendCount_underflow "main" ⟨0, 0⟩ true (by decide)).2 (by decide)⟩

/-! ## Debugger-initiated suspension (Thread::SuspendForDebugger, thread.cc:535-603) -/

/-- Externally observable actions of the `SuspendForDebugger` polling loop:
a `sched_yield()`, a `usleep(us)`, or a `ModifySuspendCount(delta,
for_debugger)` applied to the target thread. -/
inductive DebugSuspendEvent where
  | schedYield
  | sleep (us : Nat)
  | modifyCount (delta : Int) (for_debugger : Bool)
deriving Repr, DecidableEq

/-- Result of `Thread::SuspendForDebugger`: whether a non-null `Thread*` was
returned, the `*timeout` out-parameter, the trace of events, and the
accumulated `total_delay_us`. -/
structure DebugSuspendResult where
  foundThread : Bool
  timeout : Bool
  events : List DebugSuspendEvent
  totalDelayUs : Nat
deriving Repr, DecidableEq

/-- `kTimeoutUs` (thread.cc:536): 30 seconds. -/
def kTimeoutUs : Nat := 30 * 1000000

/-- The polling loop of `Thread::SuspendForDebugger` (thread.cc:541-602),
with the target thread assumed present in the registry.  `isSuspendedAtPoll
n` is what `thread->IsSuspended()` reports at the n-th poll.  Lean requires
a fuel argument for the unbounded `while (true)`; `none` means the fuel ran
out before the loop returned. -/
def suspendForDebuggerLoop (isSuspendedAtPoll : Nat → Bool) :
    Nat → Nat → Nat → Nat → Bool → Bool → List DebugSuspendEvent →
    Option DebugSuspendResult
  | 0, _, _, _, _, _, _ => none
  | fuel + 1, pollIdx, totalDelayUs, delayUs, requestSuspension, didSuspendRequest,
    events =>
    -- { MutexLock mu(suspend_count_lock); if (request_suspension) ModifySuspendCount(+1, true) ... }
    let events := if requestSuspension then events ++ [.modifyCount 1 true] else events
    let didSuspendRequest := didSuspendRequest || requestSuspension
    if isSuspendedAtPoll pollIdx then
      some { foundThread := true, timeout := false, events := events,
             totalDelayUs := totalDelayUs }
    else if kTimeoutUs ≤ totalDelayUs then
      -- roll the increment back, set *timeout, return NULL
      let events := if didSuspendRequest then events ++ [.modifyCount (-1) true] else events
      some { foundThread := false, timeout := true, events := events,
             totalDelayUs := totalDelayUs }
    else
      -- exponential back-off: delay doubles while staying under 0.5s
      let newDelayUs := delayUs * 2
      let delayUs := if newDelayUs < 500000 then newDelayUs else delayUs
      if delayUs = 0 then
        suspendForDebuggerLoop isSuspendedAtPoll fuel (pollIdx + 1) totalDelayUs 500
          false didSuspendRequest (events ++ [.schedYield])
      else
        suspendForDebuggerLoop isSuspendedAtPoll fuel (pollIdx + 1)
          (totalDelayUs + delayUs) delayUs false didSuspendRequest
          (events ++ [.sleep delayUs])

/-- `Thread::SuspendForDebugger(peer, request_suspension=true, timeout)` on a
target thread that exists in the registry, as a function of the target's
successive `IsSuspended()` observations. -/
def SuspendForDebugger (isSuspendedAtPoll : Nat → Bool) : Option DebugSuspendResult :=
  suspendForDebuggerLoop isSuspendedAtPoll 200 0 0 0 true false []

/-- The run in which the target never reports itself suspended. -/
def debuggerTimeoutRun : DebugSuspendResult :=
  (SuspendForDebugger (fun _ => false)).getD ⟨true, false, [], 0⟩

/-- The suspend-count modifications contained in an event trace. -/
def modCallsOf (events : List DebugSuspendEvent) : List (Int × Bool) :=
  events.filterMap fun e =>
    match e with
    | .modifyCount d fd => some (d, fd)
    | _ => none

/-- The back-off actions (yields and sleeps) contained in an event trace. -/
def backoffsOf (events : List DebugSuspendEvent) : List DebugSuspendEvent :=
  events.filter fun e =>
    match e with
    | .modifyCount _ _ => false
    | _ => true

/-- The `usleep` durations contained in an event trace. -/
def sleepsOf (events : List DebugSuspendEvent) : List Nat :=
  events.filterMap fun e =>
    match e with
    | .sleep us => some us
    | _ => none

/-- Each successive sleep either doubles the previous one or, when doubling
would reach 0.5s (500000us), repeats it. -/
def doublingCapped : List Nat → Bool
  | a :: b :: rest =>
    (decide (b = if a * 2 < 500000 then a * 2 else a)) && doublingCapped (b :: rest)
  | _ => true

/-- Applying an event trace to the target thread's counters: only the
`ModifySuspendCount` events touch them. -/
def applyCountEvents (s : SuspendCounts) (events : List DebugSuspendEvent) :
    SuspendCounts :=
  runSuspendCalls s (modCallsOf events)

theorem debuggerTimeoutRun_concrete_facts :
    SuspendForDebugger (fun _ => false) = some debuggerTimeoutRun ∧
    debuggerTimeoutRun.timeout = true ∧
    debuggerTimeoutRun.foundThread = false ∧
    modCallsOf debuggerTimeoutRun.events = [(1, true), (-1, true)] ∧
    kTimeoutUs ≤ debuggerTimeoutRun.totalDelayUs ∧
    (backoffsOf debuggerTimeoutRun.events).head? = some .schedYield ∧
    (∀ us ∈ sleepsOf debuggerTimeoutRun.events, us < 500000) ∧
    doublingCapped (sleepsOf debuggerTimeoutRun.events) = true := by
  decide

/-- Claim C7: when the target never reports itself suspended,
`SuspendForDebugger` terminates once `total_delay_us` reaches the 30-second
bound, returns NULL with `*timeout = true`, and its two counter operations
(the initial debugger increment and its rollback) compose to the identity on
the target's counters; between polls it starts with a `sched_yield` and then
sleeps with doubling delays that are never allowed to reach 0.5s. -/
theorem suspendForDebugger_timeout (s : SuspendCounts) (h : 0 ≤ s.suspend_count) :
    SuspendForDebugger (fun _ => false) = some debuggerTimeoutRun ∧
    debuggerTimeoutRun.timeout = true ∧
    debuggerTimeoutRun.foundThread = false ∧
    applyCountEvents s debuggerTimeoutRun.events = s ∧
    kTimeoutUs ≤ debuggerTimeoutRun.totalDelayUs ∧
    (backoffsOf debuggerTimeoutRun.events).head? = some .schedYield ∧
    (∀ us ∈ sleepsOf debuggerTimeoutRun.events, us < 500000) ∧
    doublingCapped (sleepsOf debuggerTimeoutRun.events) = true := by
  obtain ⟨h1, h2, h3, h4, h5, h6, h7, h8⟩ := debuggerTimeoutRun_concrete_facts
  refine ⟨h1, h2, h3, ?_, h5, h6, h7, h8⟩
  rw [applyCountEvents, h4]
  obtain ⟨sc, dsc⟩ := s
  simp only [runSuspendCalls, List.foldl, ModifySuspendCount] at *
  split
  · omega
  · split <;> (try simp) <;> omega

theorem suspendForDebugger_timeout_witness :
    SuspendForDebugger (fun _ => false) = some debuggerTimeoutRun ∧
    debuggerTimeoutRun.timeout = true ∧
    debuggerTimeoutRun.foundThread = false ∧
    applyCountEvents ⟨2, 1⟩ debuggerTimeoutRun.events = ⟨2, 1⟩ ∧
    kTimeoutUs ≤ debuggerTimeoutRun.totalDelayUs ∧
    (backoffsOf debuggerTimeoutRun.events).head? = some .schedYield ∧
    doublingCapped (sleepsOf debuggerTimeoutRun.events) = true := by
  obtain ⟨h1, h2, h3, h4, h5, h6, h7, h8⟩ :=
    suspendForDebugger_timeout ⟨2, 1⟩ (by decide)
  exact ⟨h1, h2, h3, h4, h5, h6, h8⟩

/-! ## Thread state machine and Thread::TransitionFromSuspendedToRunnable
(thread.cc:503-533), modelled as a labelled transition system in which other
threads may change `suspend_count_` whenever this thread does not hold
`thread_suspend_count_lock_`. -/

/-- The thread states (spec section 3; `kRunnable`, `kSuspended`, ... in the
source). -/
inductive ThreadState where
  | kStarting
  | kRunnable
  | kNative
  | kVmWait
  | kSuspended
  | kTerminated
deriving Repr, DecidableEq

/-- Control locations inside `TransitionFromSuspendedToRunnable`, keyed to
thread.cc line numbers. -/
inductive TransLoc where
  | loopStart    -- top of the do-loop, before the racy unsafe count read (510)
  | waitHeld     -- holding suspend-count lock, at the while condition (514)
  | waitBlocked  -- blocked in resume_cond_->Wait, lock released (516)
  | preMutator   -- lock released, about to SharedLock the mutator lock (520)
  | preCheck     -- holding shared mutator lock, about to take the count lock (523)
  | atCheck      -- holding both locks, at the GetSuspendCount() == 0 check (524)
  | postFlip     -- state set to kRunnable, suspend-count lock still held (525)
  | retry        -- count was nonzero: mutator share released, lock still held (529)
  | done         -- loop exited; old_state returned (532)
deriving Repr, DecidableEq

/-- A configuration of the transition: where this thread is in the function,
the current value of its `suspend_count_`, its state field, the two locks as
seen from this thread, and the `old_state` captured on entry. -/
structure TransConfig where
  loc : TransLoc
  suspendCount : Int
  state : ThreadState
  suspendLockHeld : Bool
  mutatorShared : Bool
  oldState : ThreadState
deriving Repr, DecidableEq

/-- Small-step relation for `TransitionFromSuspendedToRunnable`
(thread.cc:503-533) interleaved with suspender threads.  The racy
`GetSuspendCountUnsafe` read (510) may observe a stale value, so both
branches are possible from `loopStart`.  Other threads (`envModify`) mutate
`suspend_count_` only while they hold the suspend-count lock, i.e. only when
this thread does not; they never write this thread's state to `kRunnable`
(only the owning thread makes itself runnable). -/
inductive TransStep : TransConfig → TransConfig → Prop where
  | racyCheckWait (c : Int) (st : ThreadState) (ms : Bool) (os : ThreadState) :
      TransStep ⟨.loopStart, c, st, false, ms, os⟩ ⟨.waitHeld, c, st, true, ms, os⟩
  | racyCheckSkip (c : Int) (st : ThreadState) (ms : Bool) (os : ThreadState) :
      TransStep ⟨.loopStart, c, st, false, ms, os⟩ ⟨.preMutator, c, st, false, ms, os⟩
  | waitExit (st : ThreadState) (ms : Bool) (os : ThreadState) :
      TransStep ⟨.waitHeld, 0, st, true, ms, os⟩ ⟨.preMutator, 0, st, false, ms, os⟩
  | waitBlock (c : Int) (st : ThreadState) (ms : Bool) (os : ThreadState)
      (h : c ≠ 0) :
      TransStep ⟨.waitHeld, c, st, true, ms, os⟩ ⟨.waitBlocked, c, st, false, ms, os⟩
  | waitWake (c : Int) (st : ThreadState) (ms : Bool) (os : ThreadState) :
      TransStep ⟨.waitBlocked, c, st, false, ms, os⟩ ⟨.waitHeld, c, st, true, ms, os⟩
  | acquireMutator (c : Int) (st : ThreadState) (sl : Bool) (os : ThreadState) :
      TransStep ⟨.preMutator, c, st, sl, false, os⟩ ⟨.preCheck, c, st, sl, true, os⟩
  | lockForCheck (c : Int) (st : ThreadState) (ms : Bool) (os : ThreadState) :
      TransStep ⟨.preCheck, c, st, false, ms, os⟩ ⟨.atCheck, c, st, true, ms, os⟩
  | checkZeroFlip (st : ThreadState) (ms : Bool) (os : ThreadState) :
      TransStep ⟨.atCheck, 0, st, true, ms, os⟩ ⟨.postFlip, 0, .kRunnable, true, ms, os⟩
  | flipRelease (c : Int) (st : ThreadState) (ms : Bool) (os : ThreadState) :
      TransStep ⟨.postFlip, c, st, true, ms, os⟩ ⟨.done, c, st, false, ms, os⟩
  | checkNonZero (c : Int) (st : ThreadState) (sl : Bool) (os : ThreadState)
      (h : c ≠ 0) :
      TransStep ⟨.atCheck, c, st, sl, true, os⟩ ⟨.retry, c, st, sl, false, os⟩
  | retryRelease (c : Int) (st : ThreadState) (ms : Bool) (os : ThreadState) :
      TransStep ⟨.retry, c, st, true, ms, os⟩ ⟨.loopStart, c, st, false, ms, os⟩
  | envModify (l : TransLoc) (c c' : Int) (st : ThreadState) (ms : Bool)
      (os : ThreadState) :
      TransStep ⟨l, c, st, false, ms, os⟩ ⟨l, c', st, false, ms, os⟩

/-- Entry configuration: `old_state = GetStateUnsafe()`, which
`DCHECK_NE(old_state, kRunnable)` requires to be non-runnable; no lock held. -/
def TransInit (c0 : Int) (os : ThreadState) : TransConfig :=
  ⟨.loopStart, c0, os, false, false, os⟩

/-- Configurations reachable during a call of
`TransitionFromSuspendedToRunnable`. -/
inductive TransReachable : TransConfig → Prop where
  | init (c0 : Int) (os : ThreadState) (h : os ≠ .kRunnable) :
      TransReachable (TransInit c0 os)
  | step {c c' : TransConfig} : TransReachable c → TransStep c c' →
      TransReachable c'

/-- The location-indexed invariant of the transition loop. -/
def TransInv (c : TransConfig) : Prop :=
  match c.loc with
  | .loopStart => c.suspendLockHeld = false ∧ c.mutatorShared = false ∧
      c.state ≠ .kRunnable
  | .waitHeld => c.suspendLockHeld = true ∧ c.mutatorShared = false ∧
      c.state ≠ .kRunnable
  | .waitBlocked => c.suspendLockHeld = false ∧ c.mutatorShared = false ∧
      c.state ≠ .kRunnable
  | .preMutator => c.suspendLockHeld = false ∧ c.mutatorShared = false ∧
      c.state ≠ .kRunnable
  | .preCheck => c.suspendLockHeld = false ∧ c.mutatorShared = true ∧
      c.state ≠ .kRunnable
  | .atCheck => c.suspendLockHeld = true ∧ c.mutatorShared = true ∧
      c.state ≠ .kRunnable
  | .postFlip => c.suspendLockHeld = true ∧ c.mutatorShared = true ∧
      c.state = .kRunnable ∧ c.suspendCount = 0
  | .retry => c.suspendLockHeld = true ∧ c.mutatorShared = false ∧
      c.state ≠ .kRunnable
  | .done => c.suspendLockHeld = false ∧ c.mutatorShared = true ∧
      c.state = .kRunnable

theorem transInv_holds {c : TransConfig} (h : TransReachable c) : TransInv c := by
  induction h with
  | init c0 os hos => exact ⟨rfl, rfl, hos⟩
  | step _ hs ih => cases hs <;> simp_all [TransInv]

theorem transStep_preserves_oldState {c c' : TransConfig} (h : TransStep c c') :
    c'.oldState = c.oldState := by
  cases h <;> rfl

/-- Claim C2: `TransitionFromSuspendedToRunnable` never makes the thread
runnable while its suspend count is nonzero.  (i) Any step that flips the
state to `kRunnable` happens with the suspend-count lock held and
`suspend_count_ = 0`, and the count is still 0 (and the lock still held)
immediately after the flip — the check and the flip are atomic under the
lock, since `envModify` requires the lock to be free.  (ii) The function
returns only after such a flip: at `done` the state is `kRunnable` and the
unchanged `old_state` (non-runnable) is returned.  (iii) While waiting on
the resume condition variable the thread does not hold the mutator lock. -/
theorem transitionFromSuspendedToRunnable_safe :
    (∀ c c' : TransConfig, TransStep c c' → c.state ≠ .kRunnable →
      c'.state = .kRunnable →
      c.suspendLockHeld = true ∧ c.suspendCount = 0 ∧
      c'.suspendLockHeld = true ∧ c'.suspendCount = 0) ∧
    (∀ c : TransConfig, TransReachable c → c.loc = .done →
      c.state = .kRunnable ∧ c.oldState ≠ .kRunnable) ∧
    (∀ c : TransConfig, TransReachable c →
      (c.loc = .waitHeld ∨ c.loc = .waitBlocked) → c.mutatorShared = false) ∧
    (∀ c : TransConfig, TransReachable c → c.loc = .postFlip →
      c.suspendCount = 0 ∧ c.suspendLockHeld = true ∧ c.state = .kRunnable) := by
  refine ⟨?_, ?_, ?_, ?_⟩
  · intro c c' hs hpre hpost
    cases hs <;> simp_all
  · intro c hr hloc
    have hinv := transInv_holds hr
    refine ⟨?_, ?_⟩
    · obtain ⟨l, cc, st, sl, ms, os⟩ := c
      simp only at hloc
      subst hloc
      exact hinv.2.2
    · clear hinv hloc
      induction hr with
      | init c0 os h => exact h
      | step hr hs ih =>
        rename_i c₀ c₁
        rw [transStep_preserves_oldState hs]
        exact ih
  · intro c hr hloc
    have hinv := transInv_holds hr
    obtain ⟨l, cc, st, sl, ms, os⟩ := c
    rcases hloc with h | h <;> simp only at h <;> subst h <;> exact hinv.2.1
  · intro c hr hloc
    have hinv := transInv_holds hr
    obtain ⟨l, cc, st, sl, ms, os⟩ := c
    simp only at hloc
    subst hloc
    exact ⟨hinv.2.2.2, hinv.1, hinv.2.2.1⟩

theorem transitionFromSuspendedToRunnable_safe_witness :
    (⟨TransLoc.waitHeld, 3, ThreadState.kSuspended, true, false,
       ThreadState.kSuspended⟩ : TransConfig).mutatorShared = false :=
  transitionFromSuspendedToRunnable_safe.2.2.1
    ⟨.waitHeld, 3, .kSuspended, true, false, .kSuspended⟩
    (TransReachable.step
      (TransReachable.init 3 .kSuspended (by decide))
      (TransStep.racyCheckWait 3 .kSuspended false .kSuspended))
    (Or.inl rfl)

/-! ## GC root discovery (ReferenceMapVisitor::VisitFrame, thread.cc:1700-1761) -/

/-- `__builtin_popcount`, with an explicit recursion bound so that the
definition evaluates structurally (one halving per step, so `n` steps
always suffice for input `n`). -/
def popCountFuel : Nat → Nat → Nat
  | 0, _ => 0
  | fuel + 1, n => if n = 0 then 0 else (n &&& 1) + popCountFuel fuel (n >>> 1)

/-- `__builtin_popcount` on the spill mask. -/
def popCount (n : Nat) : Nat :=
  popCountFuel (n + 1) n

theorem shiftRight_one_lt (n : Nat) (h : n ≠ 0) : n >>> 1 < n := by
  simp only [Nat.shiftRight_eq_div_pow, pow_one]
  exact Nat.div_lt_self (Nat.pos_of_ne_zero h) one_lt_two

theorem popCountFuel_congr :
    ∀ f f' n : Nat, n < f → n < f' → popCountFuel f n = popCountFuel f' n := by
  intro f
  induction f with
  | zero => intro f' n h; omega
  | succ f ih =>
    intro f' n hf hf'
    cases f' with
    | zero => omega
    | succ f' =>
      simp only [popCountFuel]
      by_cases h0 : n = 0
      · simp [h0]
      · have hlt := shiftRight_one_lt n h0
        simp only [h0, if_false]
        rw [ih f' (n >>> 1) (by omega) (by omega)]

theorem popCount_eq (n : Nat) (h : n ≠ 0) :
    popCount n = (n &&& 1) + popCount (n >>> 1) := by
  unfold popCount
  conv_lhs => rw [popCountFuel]
  have hlt := shiftRight_one_lt n h
  simp only [h, if_false]
  rw [popCountFuel_congr n (n >>> 1 + 1) (n >>> 1) (by omega) (by omega)]

/-- `ReferenceMapVisitor::TestBitmap` (thread.cc:1764-1766): bit `reg` of the
byte-array reference bitmap. -/
def TestBitmap (reg : Nat) (reg_vector : List Nat) : Bool :=
  ((reg_vector.getD (reg / 8) 0 >>> (reg % 8)) &&& 1) ≠ 0

/-- The spill-shift search loop of thread.cc:1739-1747 with an explicit
recursion bound (the mask halves per step, so `spillMask + 1` steps always
suffice). -/
def findSpillShiftsFuel : Nat → Nat → Nat → Nat → Nat → Option Nat
  | 0, _, _, _, _ => none
  | fuel + 1, spillMask, matchCount, target, shifts =>
    if matchCount = target then some (shifts - 1)
    else if spillMask = 0 then none
    else findSpillShiftsFuel fuel (spillMask >>> 1) (matchCount + (spillMask &&& 1))
      target (shifts + 1)

/-- The spill-shift search loop of thread.cc:1739-1747: find how far to
shift to reach the (`target`)-th set bit of the spill mask, returning
`spill_shifts - 1` ("wind back one as we want the last match").  `none`
models the diverging case the source excludes with
`DCHECK_NE(spill_mask, 0u)`. -/
def findSpillShifts (spillMask matchCount target shifts : Nat) : Option Nat :=
  findSpillShiftsFuel (spillMask + 1) spillMask matchCount target shifts

/-- The data the visitor reads from a compiled ("quick") frame and its
method: method flags, the per-PC register reference bitmap
(`PcToReferenceMap::FindBitMap(GetDexPc())`), its byte width
(`map.RegWidth()`), `code_item->registers_size_`, the vmap table
(`VmapTable::IsInContext(reg, vmap_offset)`), the core spill mask, and the
two external value sources: the machine context's saved registers
(`GetGPR`) and the frame's stack slots (`GetVReg`).  References are machine
words; 0 is NULL. -/
structure QuickFrameInfo where
  isNative : Bool
  isRuntimeMethod : Bool
  isProxyMethod : Bool
  regBitmap : List Nat
  regWidth : Nat
  registersSize : Nat
  vmapInContext : Nat → Option Nat
  coreSpills : Nat
  gprAt : Nat → Nat
  vregAt : Nat → Nat

/-- `num_regs = std::min(map.RegWidth() * 8, code_item->registers_size_)`
(thread.cc:1726-1727). -/
def numRegsOf (f : QuickFrameInfo) : Nat :=
  min (f.regWidth * 8) f.registersSize

/-- Where a marked register's value is read from (thread.cc:1733-1752):
from the context register named by the spill mask when the vmap table places
the register in context, otherwise from the frame's stack slot. -/
def regLoad (f : QuickFrameInfo) (reg : Nat) : Option Nat :=
  match f.vmapInContext reg with
  | some vmapOffset => (findSpillShifts f.coreSpills 0 (vmapOffset + 1) 0).map f.gprAt
  | none => some (f.vregAt reg)

/-- The register loop of thread.cc:1730-1757 over registers `0..n-1`: for
each register marked in the bitmap, load its value and report it to the root
callback when non-null.  The accumulated list is the sequence of callback
invocations. -/
def visitRegs (f : QuickFrameInfo) : Nat → Option (List Nat)
  | 0 => some []
  | reg + 1 => do
    let acc ← visitRegs f reg
    if TestBitmap reg f.regBitmap then
      let ref ← regLoad f reg
      pure (if ref ≠ 0 then acc ++ [ref] else acc)
    else
      pure acc

/-- A logical frame seen by the visitor: an interpreter shadow frame with
its local slots, or a compiled quick frame. -/
inductive Frame where
  | shadow (locals : List Nat)
  | quick (f : QuickFrameInfo)

/-- Modelled from the spec: `ShadowFrame::VisitRoots` is called at
thread.cc:1707 but its body is not part of src/.  Per the spec the root
visitor, on a shadow frame, "visits its local slots directly" and "reports
each non-null one to a caller-supplied root callback". -/
def shadowFrameVisitRoots (locals : List Nat) : List Nat :=
  locals.filter fun r => r ≠ 0

/-- `ReferenceMapVisitor::VisitFrame` (thread.cc:1700-1761): the sequence of
roots reported for one frame.  `none` models the aborting CHECK paths
(absent gc map / diverging spill search). -/
def ReferenceMapVisitFrame : Frame → Option (List Nat)
  | .shadow locals => some (shadowFrameVisitRoots locals)
  | .quick f =>
    if !f.isNative && !f.isRuntimeMethod && !f.isProxyMethod then
      visitRegs f (numRegsOf f)
    else
      some []

/-- The spec-side description of what the visitor must report for a quick
frame: in register order, the value of every register marked in the bitmap
whose loaded value is non-null. -/
def liveQuickRefs (f : QuickFrameInfo) : List Nat :=
  ((List.range (numRegsOf f)).filter
      (fun reg => TestBitmap reg f.regBitmap && decide ((regLoad f reg).getD 0 ≠ 0))).map
    fun reg => (regLoad f reg).getD 0

theorem findSpillShiftsFuel_isSome :
    ∀ fuel spillMask matchCount target shifts, spillMask < fuel →
      matchCount ≤ target → target ≤ matchCount + popCount spillMask →
      (findSpillShiftsFuel fuel spillMask matchCount target shifts).isSome = true := by
  intro fuel
  induction fuel with
  | zero => intro _ _ _ _ h; omega
  | succ fuel ih =>
    intro spillMask matchCount target shifts hf hle hbound
    simp only [findSpillShiftsFuel]
    split
    · simp
    · rename_i hne
      split
      · rename_i h0
        subst h0
        have hpc : popCount 0 = 0 := rfl
        omega
      · rename_i h0
        have hpc := popCount_eq spillMask h0
        have hlt := shiftRight_one_lt spillMask h0
        have hone : spillMask &&& 1 ≤ 1 := Nat.and_le_right
        exact ih (spillMask >>> 1) (matchCount + (spillMask &&& 1)) target (shifts + 1)
          (by omega) (by omega) (by omega)

theorem findSpillShifts_isSome (spillMask matchCount target shifts : Nat)
    (hle : matchCount ≤ target) (hbound : target ≤ matchCount + popCount spillMask) :
    (findSpillShifts spillMask matchCount target shifts).isSome = true :=
  findSpillShiftsFuel_isSome (spillMask + 1) spillMask matchCount target shifts
    (Nat.lt_succ_self _) hle hbound

theorem regLoad_isSome (f : QuickFrameInfo) (reg : Nat)
    (hctx : ∀ off, f.vmapInContext reg = some off → off < popCount f.coreSpills) :
    (regLoad f reg).isSome = true := by
  unfold regLoad
  cases hv : f.vmapInContext reg with
  | none => rfl
  | some off =>
    have hs := findSpillShifts_isSome f.coreSpills 0 (off + 1) 0 (Nat.zero_le _)
      (by have := hctx off hv; omega)
    obtain ⟨v, hv2⟩ := Option.isSome_iff_exists.mp hs
    dsimp only
    rw [hv2]
    rfl

theorem visitRegs_eq (f : QuickFrameInfo) (n : Nat)
    (h : ∀ reg, reg < n → (regLoad f reg).isSome = true) :
    visitRegs f n = some (((List.range n).filter
        (fun reg => TestBitmap reg f.regBitmap && decide ((regLoad f reg).getD 0 ≠ 0))).map
      fun reg => (regLoad f reg).getD 0) := by
  induction n with
  | zero => rfl
  | succ n ih =>
    have hrec := ih fun reg hr => h reg (Nat.lt_trans hr (Nat.lt_succ_self n))
    rw [visitRegs, hrec]
    simp only [Option.bind_eq_bind, Option.some_bind, List.range_succ, List.filter_append,
      List.map_append, List.filter_cons, List.filter_nil, List.map_nil]
    obtain ⟨v, hv⟩ := Option.isSome_iff_exists.mp (h n (Nat.lt_succ_self n))
    by_cases hb : TestBitmap n f.regBitmap
    · simp only [hb, if_true, hv, Option.some_bind]
      by_cases hz : v = 0
      · subst hz
        simp [hv]
      · simp [hv, hz]
    · simp [hb]

/-- Claim C3: the GC root visitor visits a shadow frame's local slots
directly (reporting the non-null ones); for a compiled frame of a
non-native, non-runtime, non-proxy method it examines exactly the registers
marked in the method's reference bitmap for the current PC, reads each from
the context's saved registers when the vmap table places it there and from
the frame's stack slots otherwise, and reports each marked register's
non-null reference exactly once, in register order; unmarked (dead) slots
are never read. -/
theorem referenceMapVisitor_reports (f : QuickFrameInfo)
    (hnat : f.isNative = false) (hrt : f.isRuntimeMethod = false)
    (hpx : f.isProxyMethod = false)
    (hctx : ∀ reg, reg < numRegsOf f → ∀ off, f.vmapInContext reg = some off →
      off < popCount f.coreSpills) :
    (∀ locals, ReferenceMapVisitFrame (.shadow locals) =
      some (locals.filter fun r => r ≠ 0)) ∧
    ReferenceMapVisitFrame (.quick f) = some (liveQuickRefs f) ∧
    (∀ r, r ∈ liveQuickRefs f → r ≠ 0 ∧ ∃ reg, reg < numRegsOf f ∧
      TestBitmap reg f.regBitmap = true ∧ regLoad f reg = some r) ∧
    (liveQuickRefs f).length = ((List.range (numRegsOf f)).filter
        (fun reg => TestBitmap reg f.regBitmap &&
          decide ((regLoad f reg).getD 0 ≠ 0))).length := by
  refine ⟨fun locals => rfl, ?_, ?_, by simp [liveQuickRefs]⟩
  · rw [ReferenceMapVisitFrame]
    simp only [hnat, hrt, hpx, Bool.not_false, Bool.and_self, if_true]
    exact visitRegs_eq f (numRegsOf f) fun reg hr => regLoad_isSome f reg (hctx reg hr)
  · intro r hr
    simp only [liveQuickRefs, List.mem_map, List.mem_filter, List.mem_range,
      Bool.and_eq_true, decide_eq_true_eq] at hr
    obtain ⟨reg, ⟨hlt, hb, hnz⟩, hval⟩ := hr
    have hsome := regLoad_isSome f reg (hctx reg hlt)
    obtain ⟨v, hv⟩ := Option.isSome_iff_exists.mp hsome
    rw [hv] at hval hnz
    simp only [Option.getD_some] at hval hnz
    subst hval
    exact ⟨hnz, reg, hlt, hb, hv⟩

/-- A concrete quick frame: bitmap byte 0b0101 marks registers 0 and 2 of 4;
register 0 lives in the context (vmap offset 1 in spill mask 0b101, i.e.
machine register 2), register 2 holds NULL on the stack; so exactly the one
live non-null reference (value 12) is reported. -/
def sampleQuickFrame : QuickFrameInfo where
  isNative := false
  isRuntimeMethod := false
  isProxyMethod := false
  regBitmap := [5]
  regWidth := 1
  registersSize := 4
  vmapInContext := fun reg => if reg = 0 then some 1 else none
  coreSpills := 5
  gprAt := fun s => s + 10
  vregAt := fun reg => if reg = 2 then 0 else 7

theorem referenceMapVisitor_reports_witness :
    ReferenceMapVisitFrame (.shadow [3, 0, 4]) = some [3, 4] ∧
    ReferenceMapVisitFrame (.quick sampleQuickFrame) = some [12] ∧
    liveQuickRefs sampleQuickFrame = [12] := by
  have h := referenceMapVisitor_reports sampleQuickFrame rfl rfl rfl
    (by
      intro reg hlt off hoff
      simp only [sampleQuickFrame] at hoff
      by_cases h0 : reg = 0
      · subst h0
        simp only [if_true, Option.some.injEq] at hoff
        subst hoff
        decide
      · simp [h0] at hoff)
  have hlive : liveQuickRefs sampleQuickFrame = [12] := by decide
  exact ⟨by simpa using h.1 [3, 0, 4], hlive ▸ h.2.1, hlive⟩

/-! ## Catch-handler search (CatchBlockStackVisitor, thread.cc:1516-1622) and
exception delivery (Thread::DeliverException, thread.cc:1624-1640) -/

/-- What the catch-search visitor reads from a frame's method.
`findCatchBlock` stands for `Method::FindCatchBlock(to_find_, dex_pc)`
already specialised to the thrown exception's class `to_find_`: it returns
the handler dex pc of the first exception-table entry covering `dex_pc`
whose catch type is assignable from the thrown class (`none` models
`DexFile::kDexNoIndex`).  `traceExitPc` is `IsTraceExitPc(GetCurrentQuickFramePc())`
and `traceUnwindDexPc` the dex pc recovered through
`TraceMethodUnwindFromCode`/`ToDexPC` (both external). -/
structure CatchMethodInfo where
  isRuntimeMethod : Bool
  isNative : Bool
  dexPc : Nat
  traceExitPc : Bool
  traceUnwindDexPc : Nat
  findCatchBlock : Nat → Option Nat
  toNativePc : Nat → Nat

/-- A frame seen by the catch-search walk: the upcall marker
(`GetMethod() == NULL`) with its saved quick frame and pc, or a managed
frame. -/
inductive CatchFrame where
  | upcall (quickFrame : Nat) (quickFramePc : Nat)
  | managed (m : CatchMethodInfo) (quickFrame : Nat) (quickFramePc : Nat)

/-- Mutable state of `CatchBlockStackVisitor` (thread.cc:1602-1621). -/
structure CatchState where
  throwMethodSet : Bool
  handlerQuickFrame : Option Nat
  handlerQuickFramePc : Nat
  handlerDexPc : Nat
  nativeMethodCount : Nat
deriving Repr, DecidableEq

/-- Constructor state (thread.cc:1518-1527). -/
def initCatchState : CatchState :=
  ⟨false, none, 0, 0, 0⟩

/-- The `dex_pc` computed at thread.cc:1542-1562: `kDexNoIndex` (`none`) for
runtime and native methods, otherwise the frame's dex pc (or the
trace-unwind pc when method tracing is active and the frame pc is the trace
exit stub). -/
def catchDexPcOf (tracing : Bool) (m : CatchMethodInfo) : Option Nat :=
  if m.isRuntimeMethod then none
  else if m.isNative then none
  else if tracing && m.traceExitPc then some m.traceUnwindDexPc
  else some m.dexPc

/-- `CatchBlockStackVisitor::VisitFrame` (thread.cc:1533-1574).  Returns the
updated visitor state and whether the walk continues. -/
def CatchBlockVisitFrame (tracing : Bool) (s : CatchState) (fr : CatchFrame) :
    CatchState × Bool :=
  match fr with
  | .upcall qf qfpc =>
    -- the upcall: remember frame and pc for the long jump, end the walk
    ({ s with handlerQuickFramePc := qfpc, handlerQuickFrame := some qf }, false)
  | .managed m qf _ =>
    let s :=
      if m.isRuntimeMethod then s
      else
        let s := if s.throwMethodSet then s else { s with throwMethodSet := true }
        if m.isNative then { s with nativeMethodCount := s.nativeMethodCount + 1 }
        else s
    match catchDexPcOf tracing m with
    | some pc =>
      match m.findCatchBlock pc with
      | some foundDexPc =>
        ({ s with handlerDexPc := foundDexPc,
                  handlerQuickFramePc := m.toNativePc foundDexPc,
                  handlerQuickFrame := some qf }, false)
      | none => (s, true)
    | none => (s, true)

/-- `WalkStack` driving the catch visitor over the frames from innermost to
outermost, stopping when the visitor returns false. -/
def CatchBlockWalkStack (tracing : Bool) (s : CatchState) :
    List CatchFrame → CatchState
  | [] => s
  | fr :: rest =>
    let r := CatchBlockVisitFrame tracing s fr
    if r.2 then CatchBlockWalkStack tracing r.1 rest else r.1

/-- A frame "decides" the search when it ends the walk: it is the upcall
marker, or its method's exception table yields a catch block for the
frame's dex pc. -/
def decidesCatch (tracing : Bool) (fr : CatchFrame) : Bool :=
  match fr with
  | .upcall _ _ => true
  | .managed m _ _ =>
    match catchDexPcOf tracing m with
    | some pc => (m.findCatchBlock pc).isSome
    | none => false

/-- The quick frame a deciding frame records as transfer target. -/
def catchTargetFrame : CatchFrame → Nat
  | .upcall qf _ => qf
  | .managed _ qf _ => qf

/-- The quick-frame pc a deciding frame records: the saved pc for the
upcall, the native pc of the found handler for a managed frame. -/
def catchTargetPc (tracing : Bool) : CatchFrame → Nat
  | .upcall _ qfpc => qfpc
  | .managed m _ _ =>
    match catchDexPcOf tracing m with
    | some pc => m.toNativePc ((m.findCatchBlock pc).getD 0)
    | none => 0

theorem catchVisitFrame_continue (tracing : Bool) (s : CatchState) (fr : CatchFrame)
    (h : decidesCatch tracing fr = false) :
    (CatchBlockVisitFrame tracing s fr).2 = true := by
  cases fr with
  | upcall qf qfpc => simp [decidesCatch] at h
  | managed m qf qfpc =>
    simp only [decidesCatch] at h
    simp only [CatchBlockVisitFrame]
    cases hpc : catchDexPcOf tracing m with
    | none => rfl
    | some pc =>
      rw [hpc] at h
      cases hf : m.findCatchBlock pc with
      | none => simp [hf]
      | some found => simp [hf] at h

theorem catchVisitFrame_decides (tracing : Bool) (s : CatchState) (fr : CatchFrame)
    (h : decidesCatch tracing fr = true) :
    (CatchBlockVisitFrame tracing s fr).2 = false ∧
    (CatchBlockVisitFrame tracing s fr).1.handlerQuickFrame =
      some (catchTargetFrame fr) ∧
    (CatchBlockVisitFrame tracing s fr).1.handlerQuickFramePc =
      catchTargetPc tracing fr := by
  cases fr with
  | upcall qf qfpc => exact ⟨rfl, rfl, rfl⟩
  | managed m qf qfpc =>
    simp only [decidesCatch] at h
    simp only [CatchBlockVisitFrame, catchTargetFrame, catchTargetPc]
    cases hpc : catchDexPcOf tracing m with
    | none => rw [hpc] at h; simp at h
    | some pc =>
      rw [hpc] at h
      cases hf : m.findCatchBlock pc with
      | none => simp [hf] at h
      | some found => simp [hf]

/-- Claim C4: the catch search visits frames innermost-first and the first
frame that decides the transfer target ends the walk: frames after it are
never consulted, the recorded handler frame is the deciding frame's quick
frame, and the recorded pc is its saved pc (upcall: the no-handler terminal
case) or the native pc of its matching handler (managed frame).  In
particular, when several frames could match, the innermost one wins. -/
theorem catchSearch_innermost_wins (tracing : Bool) (pre rest : List CatchFrame)
    (fr : CatchFrame) (s : CatchState)
    (hpre : ∀ f ∈ pre, decidesCatch tracing f = false)
    (hfr : decidesCatch tracing fr = true) :
    CatchBlockWalkStack tracing s (pre ++ fr :: rest) =
      CatchBlockWalkStack tracing s (pre ++ [fr]) ∧
    (CatchBlockWalkStack tracing s (pre ++ fr :: rest)).handlerQuickFrame =
      some (catchTargetFrame fr) ∧
    (CatchBlockWalkStack tracing s (pre ++ fr :: rest)).handlerQuickFramePc =
      catchTargetPc tracing fr := by
  induction pre generalizing s with
  | nil =>
    obtain ⟨hstop, hframe, hpc⟩ := catchVisitFrame_decides tracing s fr hfr
    simp only [List.nil_append, CatchBlockWalkStack, hstop, if_false]
    exact ⟨rfl, hframe, hpc⟩
  | cons f pre ih =>
    have hf := catchVisitFrame_continue tracing s f (hpre f (List.mem_cons_self f pre))
    have ih := ih ((CatchBlockVisitFrame tracing s f).1)
      (fun g hg => hpre g (List.mem_cons_of_mem f hg))
    simp only [List.cons_append, CatchBlockWalkStack, hf, if_true]
    exact ih

/-- The spec's three-frame scenario: two inner frames without a matching
handler, an outer frame whose exception table matches at its pc. -/
def innerNoHandler : CatchMethodInfo :=
  ⟨false, false, 10, false, 0, fun _ => none, fun pc => pc + 100⟩

def outerWithHandler : CatchMethodInfo :=
  ⟨false, false, 30, false, 0, fun pc => if pc = 30 then some 42 else none,
   fun pc => pc + 100⟩

theorem catchSearch_innermost_wins_witness :
    (CatchBlockWalkStack false initCatchState
        [.managed innerNoHandler 1 11, .managed innerNoHandler 2 12,
         .managed outerWithHandler 3 13]).handlerQuickFrame = some 3 ∧
    (CatchBlockWalkStack false initCatchState
        [.managed innerNoHandler 1 11, .managed innerNoHandler 2 12,
         .managed outerWithHandler 3 13]).handlerQuickFramePc = 142 := by
  have h := catchSearch_innermost_wins false
    [.managed innerNoHandler 1 11, .managed innerNoHandler 2 12] []
    (.managed outerWithHandler 3 13) initCatchState
    (by
      intro f hf
      simp only [List.mem_cons, List.not_mem_nil, or_false] at hf
      rcases hf with h1 | h2
      · subst h1; rfl
      · subst h2; rfl)
    rfl
  exact ⟨h.2.1, h.2.2⟩

/-- The thread as the exception-delivery engine sees it: just the
pending-exception slot (`exception_`); exception objects are machine words,
0 is NULL. -/
structure ExcThread where
  exception_ : Option Nat
deriving Repr, DecidableEq

/-- How a call of `Thread::DeliverException` terminates. -/
inductive DeliverOutcome where
  | longJump (sp : Nat) (pc : Nat)
  | fatalCheck
  | normalReturn
deriving Repr, DecidableEq

/-- Observed behaviour of one `DeliverException` call: the value of the
pending-exception slot while the handler search walked the stack, the
thread at the moment control leaves the function, and how it leaves. -/
structure DeliverResult where
  exceptionDuringSearch : Option Nat
  finalThread : ExcThread
  outcome : DeliverOutcome
deriving Repr, DecidableEq

/-- `CatchBlockStackVisitor::DoLongJump` (thread.cc:1576-1600): reinstate
the exception as pending (`self_->SetException(exception_)`, putting it
back in the root set), then set SP/PC from the recorded handler frame
(after `CHECK_NE(handler_quick_frame_pc_, 0u)`) and perform the non-local
jump, which never returns. -/
def DoLongJump (t : ExcThread) (exception : Nat) (s : CatchState) :
    ExcThread × DeliverOutcome :=
  let t := { t with exception_ := some exception }
  if s.handlerQuickFramePc = 0 then (t, .fatalCheck)
  else (t, .longJump (s.handlerQuickFrame.getD 0) s.handlerQuickFramePc)

/-- `Thread::DeliverException` (thread.cc:1624-1640): take the pending
exception (`CHECK(exception != NULL)`), clear it from the thread, run the
catch search over the stack, and long-jump; the statement after the jump
trigger is `LOG(FATAL) << "UNREACHABLE"`, modelled by mapping a (never
occurring) normal return of the jump to `fatalCheck`. -/
def DeliverException (tracing : Bool) (t : ExcThread) (frames : List CatchFrame) :
    DeliverResult :=
  match t.exception_ with
  | none => { exceptionDuringSearch := t.exception_, finalThread := t,
              outcome := .fatalCheck }
  | some exception =>
    let cleared : ExcThread := { t with exception_ := none }
    let s := CatchBlockWalkStack tracing initCatchState frames
    let r := DoLongJump cleared exception s
    match r.2 with
    | .normalReturn => { exceptionDuringSearch := cleared.exception_,
                         finalThread := r.1, outcome := .fatalCheck }
    | o => { exceptionDuringSearch := cleared.exception_, finalThread := r.1,
             outcome := o }

/-- Claim C5: when an exception `e` is pending, `DeliverException` clears
the pending-exception slot before the handler search (the search observes
an empty slot), reinstates exactly `e` as the pending exception before the
non-local jump, exits by that jump, and never returns through its normal
call path (for any inputs at all). -/
theorem deliverException_spec (tracing : Bool) (t : ExcThread) (e : Nat)
    (frames : List CatchFrame) (he : t.exception_ = some e)
    (hpc : (CatchBlockWalkStack tracing initCatchState frames).handlerQuickFramePc ≠ 0) :
    (DeliverException tracing t frames).exceptionDuringSearch = none ∧
    (DeliverException tracing t frames).finalThread.exception_ = some e ∧
    (DeliverException tracing t frames).outcome =
      .longJump ((CatchBlockWalkStack tracing initCatchState frames).handlerQuickFrame.getD 0)
        ((CatchBlockWalkStack tracing initCatchState frames).handlerQuickFramePc) ∧
    (∀ (t' : ExcThread) (frames' : List CatchFrame),
      (DeliverException tracing t' frames').outcome ≠ .normalReturn) := by
  refine ⟨?_, ?_, ?_, ?_⟩
  · simp [DeliverException, he, DoLongJump, hpc]
  · simp [DeliverException, he, DoLongJump, hpc]
  · simp [DeliverException, he, DoLongJump, hpc]
  · intro t' frames'
    cases ht : t'.exception_ with
    | none => simp [DeliverException, ht]
    | some e' =>
      simp only [DeliverException, ht, DoLongJump]
      split <;> simp_all

theorem deliverException_spec_witness :
    (DeliverException false ⟨some 7⟩ [.upcall 3 5]).exceptionDuringSearch = none ∧
    (DeliverException false ⟨some 7⟩ [.upcall 3 5]).finalThread.exception_ = some 7 ∧
    (DeliverException false ⟨some 7⟩ [.upcall 3 5]).outcome = .longJump 3 5 := by
  have h := deliverException_spec false ⟨some 7⟩ 7 [.upcall 3 5] rfl (by decide)
  exact ⟨h.1, h.2.1, h.2.2.1⟩

/-! ## Reference resolution (Thread::DecodeJObject, thread.cc:1021-1078) -/

/-- The handle kinds extracted by `GetIndirectRefKind` from a handle's tag
bits. -/
inductive IndirectRefKind where
  | kSirtOrInvalid
  | kLocal
  | kGlobal
  | kWeakGlobal
deriving Repr, DecidableEq

/-- The sentinel stored in the weak-globals table for a cleared weak
reference (`kClearedJniWeakGlobal`), a distinguished non-null address. -/
def kClearedJniWeakGlobal : Nat := 1

/-- The sentinel returned for an unrecognised handle
(`kInvalidIndirectRefObject`), a distinguished non-null address. -/
def kInvalidIndirectRefObject : Nat := 2

/-- The reference-table domains `DecodeJObject` dispatches over: the
thread-confined locals table, the process-wide globals and weak-globals
tables (each consulted under its own lock), the thread's chain of
stack-indirect-reference-table scopes, and the
`work_around_app_jni_bugs` compatibility flag.  Object pointers are machine
words, 0 is NULL. -/
structure JniRefEnv where
  localsGet : Nat → Nat
  globalsGet : Nat → Nat
  weakGlobalsGet : Nat → Nat
  sirtContains : Nat → Bool
  sirtRead : Nat → Nat
  workAroundAppJniBugs : Bool

/-- What a `DecodeJObject` call produces: NULL (null handle or cleared weak
global), the `JniAbortF("use of deleted ...")` fatal path, or a resolved
pointer together with whether it was passed to `Heap::VerifyObject`. -/
inductive DecodeResult where
  | nullRef
  | fatalUseOfDeleted (kind : IndirectRefKind)
  | ok (o : Nat) (verified : Bool)
deriving Repr, DecidableEq

/-- `Thread::DecodeJObject` (thread.cc:1021-1078). -/
def DecodeJObject (env : JniRefEnv) (obj : Nat) (kind : IndirectRefKind) :
    DecodeResult :=
  if obj = 0 then .nullRef
  else
    let step : Sum DecodeResult Nat :=
      match kind with
      | .kLocal => .inr (env.localsGet obj)
      | .kGlobal => .inr (env.globalsGet obj)
      | .kWeakGlobal =>
        let r := env.weakGlobalsGet obj
        -- "This is a special case where it's okay to return NULL."
        if r = kClearedJniWeakGlobal then .inl .nullRef else .inr r
      | .kSirtOrInvalid =>
        if env.sirtContains obj then .inr (env.sirtRead obj)
        else if env.workAroundAppJniBugs then .inr obj
        else .inr kInvalidIndirectRefObject
    match step with
    | .inl res => res
    | .inr result =>
      if result = 0 then .fatalUseOfDeleted kind
      else if result ≠ kInvalidIndirectRefObject then .ok result true
      else .ok result false

theorem decodeResultTail_ok (k : IndirectRefKind) (result r : Nat) (v : Bool)
    (hok : (if result = 0 then DecodeResult.fatalUseOfDeleted k
            else if result ≠ kInvalidIndirectRefObject then DecodeResult.ok result true
            else DecodeResult.ok result false) = .ok r v) :
    r ≠ 0 ∧ (r ≠ kInvalidIndirectRefObject → v = true) := by
  split at hok
  · exact absurd hok (by simp)
  · rename_i hnz
    split at hok
    · rename_i hni
      cases hok
      exact ⟨hnz, fun _ => rfl⟩
    · rename_i hni
      cases hok
      exact ⟨hnz, fun hr => absurd (not_not.mp hni) hr⟩

/-- Claim C8: for a non-null handle, (i) a weak-global handle whose table
entry is the cleared sentinel resolves to NULL without error; (ii) a
local/global/weak-global handle whose table lookup yields a null object
pointer hits the fatal use-of-deleted-reference abort; (iii) every normally
returned pointer is non-null, and when it is not the invalid-reference
sentinel it was passed to the heap consistency check before being
returned. -/
theorem decodeJObject_spec (env : JniRefEnv) (obj : Nat) (h : obj ≠ 0) :
    (env.weakGlobalsGet obj = kClearedJniWeakGlobal →
      DecodeJObject env obj .kWeakGlobal = .nullRef) ∧
    (env.localsGet obj = 0 →
      DecodeJObject env obj .kLocal = .fatalUseOfDeleted .kLocal) ∧
    (env.globalsGet obj = 0 →
      DecodeJObject env obj .kGlobal = .fatalUseOfDeleted .kGlobal) ∧
    (env.weakGlobalsGet obj = 0 →
      DecodeJObject env obj .kWeakGlobal = .fatalUseOfDeleted .kWeakGlobal) ∧
    (∀ (kind : IndirectRefKind) (r : Nat) (v : Bool),
      DecodeJObject env obj kind = .ok r v →
      r ≠ 0 ∧ (r ≠ kInvalidIndirectRefObject → v = true)) := by
  refine ⟨?_, ?_, ?_, ?_, ?_⟩
  · intro hw
    simp [DecodeJObject, h, hw]
  · intro hl
    simp [DecodeJObject, h, hl]
  · intro hg
    simp [DecodeJObject, h, hg]
  · intro hw
    simp [DecodeJObject, h, hw, kClearedJniWeakGlobal]
  · intro kind r v hok
    rw [DecodeJObject.eq_def, if_neg h] at hok
    cases kind
    case kLocal =>
      exact decodeResultTail_ok _ _ _ _ hok
    case kGlobal =>
      exact decodeResultTail_ok _ _ _ _ hok
    case kWeakGlobal =>
      dsimp only at hok
      by_cases hw : env.weakGlobalsGet obj = kClearedJniWeakGlobal
      · rw [if_pos hw] at hok
        exact absurd hok (by simp)
      · rw [if_neg hw] at hok
        exact decodeResultTail_ok _ _ _ _ hok
    case kSirtOrInvalid =>
      dsimp only at hok
      by_cases hs : env.sirtContains obj = true
      · rw [if_pos hs] at hok
        exact decodeResultTail_ok _ _ _ _ hok
      · rw [if_neg hs] at hok
        by_cases hb : env.workAroundAppJniBugs = true
        · rw [if_pos hb] at hok
          exact decodeResultTail_ok _ _ _ _ hok
        · rw [if_neg hb] at hok
          exact decodeResultTail_ok _ _ _ _ hok

theorem decodeJObject_spec_witness :
    DecodeJObject ⟨fun _ => 15, fun _ => 0, fun _ => 1, fun _ => false,
        fun _ => 0, false⟩ 5 .kWeakGlobal = .nullRef ∧
    DecodeJObject ⟨fun _ => 0, fun _ => 0, fun _ => 0, fun _ => false,
        fun _ => 0, false⟩ 5 .kLocal = .fatalUseOfDeleted .kLocal ∧
    DecodeJObject ⟨fun _ => 0, fun _ => 0, fun _ => 0, fun _ => false,
        fun _ => 0, false⟩ 5 .kGlobal = .fatalUseOfDeleted .kGlobal ∧
    DecodeJObject ⟨fun _ => 0, fun _ => 0, fun _ => 0, fun _ => false,
        fun _ => 0, false⟩ 5 .kWeakGlobal = .fatalUseOfDeleted .kWeakGlobal ∧
    (15 : Nat) ≠ 0 :=
  ⟨(decodeJObject_spec ⟨fun _ => 15, fun _ => 0, fun _ => 1, fun _ => false,
        fun _ => 0, false⟩ 5 (by decide)).1 rfl,
   (decodeJObject_spec ⟨fun _ => 0, fun _ => 0, fun _ => 0, fun _ => false,
        fun _ => 0, false⟩ 5 (by decide)).2.1 rfl,
   (decodeJObject_spec ⟨fun _ => 0, fun _ => 0, fun _ => 0, fun _ => false,
        fun _ => 0, false⟩ 5 (by decide)).2.2.1 rfl,
   (decodeJObject_spec ⟨fun _ => 0, fun _ => 0, fun _ => 0, fun _ => false,
        fun _ => 0, false⟩ 5 (by decide)).2.2.2.1 rfl,
   ((decodeJObject_spec ⟨fun _ => 15, fun _ => 0, fun _ => 1, fun _ => false,
        fun _ => 0, false⟩ 5 (by decide)).2.2.2.2 .kLocal 15 true (by decide)).1⟩

/-! ## Stack dumping (StackDumpVisitor::VisitFrame, thread.cc:708-753) -/

/-- What the dump visitor reads from a frame: whether the method is a
runtime method (skipped), the method's identity, and the line number
computed for the frame's dex pc (`-1` when the dex cache is unavailable). -/
structure DumpFrame where
  isRuntimeMethod : Bool
  methodId : Nat
  lineNumber : Int
deriving Repr, DecidableEq

/-- Output of the dump visitor: a frame line (`"  at method(file:line)"`),
a `"  ... repeated N times"` line, and the monitor diagnostics
(`Monitor::DescribeWait` for the innermost frame, `Monitor::DescribeLocks`
when allocation is allowed). -/
inductive DumpEvent where
  | frameLine (methodId : Nat) (lineNumber : Int)
  | repeatedLine (count : Int)
  | describeWait
  | describeLocks
deriving Repr, DecidableEq

/-- Mutable state of `StackDumpVisitor` (thread.cc:694-762). -/
structure DumpState where
  lastMethod : Option Nat
  lastLineNumber : Int
  repetitionCount : Int
  frameCount : Nat
deriving Repr, DecidableEq

/-- Constructor state (thread.cc:699): `last_method(NULL),
last_line_number(0), repetition_count(0), frame_count(0)`. -/
def initDumpState : DumpState := ⟨none, 0, 0, 0⟩

/-- `kMaxRepetition` (thread.cc:713). -/
def kMaxRepetition : Int := 3

/-- `StackDumpVisitor::VisitFrame` (thread.cc:708-753): the updated state
and the lines it prints for one frame. -/
def StackDumpVisitFrame (canAllocate : Bool) (s : DumpState) (f : DumpFrame) :
    DumpState × List DumpEvent :=
  if f.isRuntimeMethod then (s, [])
  else
    let (s, events) :=
      if f.lineNumber = s.lastLineNumber ∧ s.lastMethod = some f.methodId then
        ({ s with repetitionCount := s.repetitionCount + 1 }, ([] : List DumpEvent))
      else
        let events :=
          if s.repetitionCount ≥ kMaxRepetition then
            [DumpEvent.repeatedLine (s.repetitionCount - kMaxRepetition)]
          else []
        ({ s with repetitionCount := 0, lastLineNumber := f.lineNumber,
                  lastMethod := some f.methodId }, events)
    let events := events ++
      (if s.repetitionCount < kMaxRepetition then
        [DumpEvent.frameLine f.methodId f.lineNumber] ++
        (if s.frameCount = 0 then [DumpEvent.describeWait] else []) ++
        (if canAllocate then [DumpEvent.describeLocks] else [])
      else [])
    ({ s with frameCount := s.frameCount + 1 }, events)

/-- `WalkStack` driving the dump visitor over all frames (the visitor always
returns true). -/
def StackDumpWalk (canAllocate : Bool) (s : DumpState) :
    List DumpFrame → DumpState × List DumpEvent
  | [] => (s, [])
  | f :: rest =>
    let r1 := StackDumpVisitFrame canAllocate s f
    let r2 := StackDumpWalk canAllocate r1.1 rest
    (r2.1, r1.2 ++ r2.2)

/-- Just the frame lines and repeat lines of a dump, without the monitor
diagnostics. -/
def frameOutputOf (events : List DumpEvent) : List DumpEvent :=
  events.filter fun e =>
    match e with
    | .frameLine _ _ => true
    | .repeatedLine _ => true
    | _ => false

/-- Claim C9, as stated, is false on the code: after 5 consecutive identical
(method, line) frames followed by a different frame, `repetition_count` is 4
(the first occurrence resets it to 0), so the emitted line reads
"repeated 1 times" (4 - kMaxRepetition), not "repeated 2 times". -/
theorem stackDump_claim_counterexample :
    (StackDumpWalk false initDumpState
        [⟨false, 1, 10⟩, ⟨false, 1, 10⟩, ⟨false, 1, 10⟩, ⟨false, 1, 10⟩,
         ⟨false, 1, 10⟩, ⟨false, 2, 20⟩]).2 =
      [.frameLine 1 10, .describeWait, .frameLine 1 10, .frameLine 1 10,
       .repeatedLine 1, .frameLine 2 20] ∧
    DumpEvent.repeatedLine 2 ∉
      (StackDumpWalk false initDumpState
        [⟨false, 1, 10⟩, ⟨false, 1, 10⟩, ⟨false, 1, 10⟩, ⟨false, 1, 10⟩,
         ⟨false, 1, 10⟩, ⟨false, 2, 20⟩]).2 := by
  decide

/-- Claim C9 (amended): for a run of 5 consecutive frames with identical
(method, line) pairs followed by a different frame, starting from a fresh
visitor, the frame line is printed only while the repetition count is below
`kMaxRepetition = 3` (so exactly 3 times), and one line reading
"repeated 1 times" is emitted, the repeat count being the final
`repetition_count` (4) minus `kMaxRepetition` (3). -/
theorem stackDump_run5 (canAllocate : Bool) (m₁ m₂ : Nat) (l₁ l₂ : Int)
    (hne : ¬(m₁ = m₂ ∧ l₁ = l₂)) :
    frameOutputOf
      ((StackDumpWalk canAllocate initDumpState
        [⟨false, m₁, l₁⟩, ⟨false, m₁, l₁⟩, ⟨false, m₁, l₁⟩, ⟨false, m₁, l₁⟩,
         ⟨false, m₁, l₁⟩, ⟨false, m₂, l₂⟩]).2) =
      [.frameLine m₁ l₁, .frameLine m₁ l₁, .frameLine m₁ l₁,
       .repeatedLine 1, .frameLine m₂ l₂] := by
  have hne' : ¬(l₂ = l₁ ∧ m₁ = m₂) := by
    rintro ⟨hl, hm⟩
    exact hne ⟨hm, hl.symm⟩
  cases canAllocate <;>
    simp [StackDumpWalk, StackDumpVisitFrame, initDumpState, frameOutputOf,
      kMaxRepetition, hne']

theorem stackDump_run5_witness :
    frameOutputOf
      ((StackDumpWalk false initDumpState
        [⟨false, 1, 10⟩, ⟨false, 1, 10⟩, ⟨false, 1, 10⟩, ⟨false, 1, 10⟩,
         ⟨false, 1, 10⟩, ⟨false, 2, 20⟩]).2) =
      [.frameLine 1 10, .frameLine 1 10, .frameLine 1 10,
       .repeatedLine 1, .frameLine 2 20] :=
  stackDump_run5 false 1 2 10 20 (by decide)

/-! ## Out-of-memory throwing (Thread::ThrowOutOfMemoryError, thread.cc:1358-1369) -/

/-- The thread as `ThrowOutOfMemoryError` sees it: the
`throwing_OutOfMemoryError_` guard flag, the pending-exception slot, and a
count of exception-object allocations performed on behalf of this thread. -/
structure OomThread where
  throwing_OutOfMemoryError_ : Bool
  exception_ : Option Nat
  allocCount : Nat
deriving Repr, DecidableEq

/-- `Runtime::GetPreAllocatedOutOfMemoryError()`: the OutOfMemoryError
object allocated once at startup, a fixed reference. -/
def preAllocatedOutOfMemoryError : Nat := 99

/-- `Thread::ThrowOutOfMemoryError` (thread.cc:1358-1369).
`throwNewException` stands for
`ThrowNewException("Ljava/lang/OutOfMemoryError;", msg)` (thread.cc:1308),
an arbitrary state transformer which may allocate; in the guarded
(recursive) case the function instead installs the runtime's pre-allocated
OutOfMemoryError, and in either case it clears the guard flag before
returning. -/
def ThrowOutOfMemoryError (throwNewException : OomThread → OomThread)
    (t : OomThread) : OomThread :=
  if !t.throwing_OutOfMemoryError_ then
    let t1 := { t with throwing_OutOfMemoryError_ := true }
    let t2 := throwNewException t1
    { t2 with throwing_OutOfMemoryError_ := false }
  else
    let t2 := { t with exception_ := some preAllocatedOutOfMemoryError }
    { t2 with throwing_OutOfMemoryError_ := false }

/-- Claim C10: called while an OutOfMemoryError throw is already in
progress on this thread, `ThrowOutOfMemoryError` performs no allocation and
installs the pre-allocated OutOfMemoryError as the pending exception; and
whatever the inputs, the guard flag is false again when the call returns. -/
theorem throwOutOfMemoryError_guard (throwNewException : OomThread → OomThread)
    (t : OomThread) (h : t.throwing_OutOfMemoryError_ = true) :
    ThrowOutOfMemoryError throwNewException t =
      { t with exception_ := some preAllocatedOutOfMemoryError,
               throwing_OutOfMemoryError_ := false } ∧
    (ThrowOutOfMemoryError throwNewException t).allocCount = t.allocCount ∧
    (∀ t' : OomThread,
      (ThrowOutOfMemoryError throwNewException t').throwing_OutOfMemoryError_ =
        false) := by
  refine ⟨?_, ?_, ?_⟩
  · simp [ThrowOutOfMemoryError, h]
  · simp [ThrowOutOfMemoryError, h]
  · intro t'
    rw [ThrowOutOfMemoryError]
    split <;> rfl

theorem throwOutOfMemoryError_guard_witness :
    ThrowOutOfMemoryError
        (fun t => { t with exception_ := some 5, allocCount := t.allocCount + 1 })
        ⟨true, none, 0⟩ =
      ⟨false, some preAllocatedOutOfMemoryError, 0⟩ ∧
    (ThrowOutOfMemoryError
        (fun t => { t with exception_ := some 5, allocCount := t.allocCount + 1 })
        ⟨true, none, 0⟩).allocCount = 0 := by
  have h := throwOutOfMemoryError_guard
    (fun t => { t with exception_ := some 5, allocCount := t.allocCount + 1 })
    ⟨true, none, 0⟩ rfl
  exact ⟨h.1, h.2.1⟩

end ArtThread
